import Mathlib

/-!
Shallow embedding of the autodealer back-office core (Rust + Postgres) and
proofs about it.

Source files embedded here:
  * `src/models/warehouse.rs`, `src/repositories/warehouse_repository.rs`,
    `src/handlers/warehouse_handler.rs` (stock ledger);
  * `src/models/car.rs`, `src/repositories/car_repository.rs`,
    `src/handlers/car_handlers.rs` (vehicles, completion set, eligibility);
  * `src/models/service_campaigns.rs`,
    `src/repositories/service_campaign_repository.rs` (campaigns).

Modelling conventions:
  * A Postgres table is a `List` of row records; a SQL `UPDATE ... WHERE cond`
    maps every row, rewriting exactly the rows satisfying `cond`;
    `rows_affected` is the count of rows satisfying `cond`;
    `RETURNING ...` with `fetch_optional` yields the first affected row.
  * `Uuid` is modelled as `Nat`; `DateTime<Utc>` as `Int` (the repositories
    only ever store `chrono::Utc::now()` into these columns, never compute
    with them); the `i32` quantity columns as `Int` (Postgres `integer`
    arithmetic raises on overflow instead of wrapping, so the successful
    path modelled here is exact); the `f64` price columns as `Int` (no
    verified property performs arithmetic on a price).
  * Array membership `x = ANY(arr)` is `decide (x ∈ arr)`.
-/

namespace Autodealer

/-! ### Stock ledger data model (src/models/warehouse.rs) -/

inductive StockMovementType where
  | Incoming
  | Outgoing
  | Adjustment
deriving DecidableEq, Repr

structure StockMovementRequest where
  quantity : Int
  movement_type : StockMovementType
deriving DecidableEq, Repr

structure WarehouseItem where
  id : Nat
  part_id : Nat
  quantity : Int
  min_stock_level : Int
  max_stock_level : Int
  location : Option String
  created_at : Int
  updated_at : Int
deriving DecidableEq, Repr

/-- Validation on `StockMovementRequest` (`#[validate(range(min = 1))]` on
`quantity` in src/models/warehouse.rs). -/
def stockMovementValid (req : StockMovementRequest) : Bool :=
  decide (1 ≤ req.quantity)

/-! ### Stock ledger operations (src/repositories/warehouse_repository.rs) -/

/-- Embeds `find_by_part_id`: `SELECT ... FROM warehouse WHERE part_id = $1`,
`fetch_optional`. -/
def find_by_part_id (db : List WarehouseItem) (part_id : Nat) : Option WarehouseItem :=
  db.find? (fun r => r.part_id == part_id)

/-- The `WHERE` clause of the `UPDATE` issued by `update_stock`: every
movement requires `part_id = $3`; an `Outgoing` movement additionally
requires `quantity >= $1`. -/
def stockHit (part_id : Nat) (req : StockMovementRequest) (r : WarehouseItem) : Bool :=
  r.part_id == part_id &&
    (match req.movement_type with
     | StockMovementType.Outgoing => decide (req.quantity ≤ r.quantity)
     | _ => true)

/-- The `SET` clause of the `UPDATE` issued by `update_stock`:
`Incoming` adds, `Outgoing` subtracts, `Adjustment` overwrites; every
variant refreshes `updated_at`. -/
def applyMovementRow (req : StockMovementRequest) (now : Int) (r : WarehouseItem) : WarehouseItem :=
  { r with
    quantity :=
      match req.movement_type with
      | StockMovementType.Incoming => r.quantity + req.quantity
      | StockMovementType.Outgoing => r.quantity - req.quantity
      | StockMovementType.Adjustment => req.quantity,
    updated_at := now }

/-- The warehouse table after the `UPDATE` issued by `update_stock`: rows
satisfying the `WHERE` clause are rewritten by the `SET` clause, all other
rows are untouched. -/
def update_stock_table (db : List WarehouseItem) (part_id : Nat) (req : StockMovementRequest)
    (now : Int) : List WarehouseItem :=
  db.map (fun r => if stockHit part_id req r then applyMovementRow req now r else r)

/-- Embeds `update_stock` (src/repositories/warehouse_repository.rs, lines 220-257):
runs the movement-specific `UPDATE`; if `rows_affected > 0` it re-reads the
row through `find_by_part_id`, otherwise it reports `None` without touching
anything. -/
def update_stock (db : List WarehouseItem) (part_id : Nat) (req : StockMovementRequest)
    (now : Int) : List WarehouseItem × Option WarehouseItem :=
  if 0 < db.countP (stockHit part_id req) then
    (update_stock_table db part_id req now,
     find_by_part_id (update_stock_table db part_id req now) part_id)
  else (db, none)

/-- HTTP-level outcome of the stock-movement endpoint. -/
inductive StockUpdateResponse where
  | ok (item : WarehouseItem)
  | badRequest
  | notFound (msg : String)
deriving DecidableEq, Repr

/-- Embeds `update_stock_handler` (src/handlers/warehouse_handler.rs, lines 220-253):
validates the request, calls `update_stock`, and maps `None` to a NotFound
response whose wording depends on the movement type. -/
def update_stock_handler (db : List WarehouseItem) (part_id : Nat)
    (req : StockMovementRequest) (now : Int) : List WarehouseItem × StockUpdateResponse :=
  if stockMovementValid req then
    match update_stock db part_id req now with
    | (db2, some item) => (db2, StockUpdateResponse.ok item)
    | (db2, none) =>
        (db2, StockUpdateResponse.notFound
          (match req.movement_type with
           | StockMovementType.Outgoing => "Warehouse item not found or insufficient stock"
           | _ => "Warehouse item not found"))
  else (db, StockUpdateResponse.badRequest)

/-! ### Vehicle data model (src/models/car.rs, src/models/enums.rs) -/

inductive FuelType where
  | Petrol
  | Diesel
  | Electric
  | Hybrid
deriving DecidableEq, Repr

inductive Transmission where
  | Manual
  | Automatic
  | CVT
deriving DecidableEq, Repr

inductive CarStatus where
  | Available
  | Reserved
  | Sold
  | Maintenance
deriving DecidableEq, Repr

structure Car where
  id : Nat
  brand_id : Nat
  model_id : Nat
  year : Int
  price : Int
  mileage : Int
  color : String
  vin : String
  fuel_type : FuelType
  transmission : Transmission
  status : CarStatus
  completed_service_campaigns : List Nat
  created_at : Int
  updated_at : Int
deriving DecidableEq, Repr

structure UpdateCarRequest where
  brand_id : Option Nat
  model_id : Option Nat
  year : Option Int
  price : Option Int
  mileage : Option Int
  color : Option String
  vin : Option String
  fuel_type : Option FuelType
  transmission : Option Transmission
  status : Option CarStatus
  completed_service_campaigns : Option (List Nat)
deriving DecidableEq, Repr

/-! ### Vehicle operations (src/repositories/car_repository.rs) -/

/-- Embeds the car `find_by_id`: `SELECT ... FROM cars WHERE id = $1`, `fetch_optional`. -/
def car_find_by_id (db : List Car) (id : Nat) : Option Car :=
  db.find? (fun r => r.id == id)

/-- The `SET` clause of `CarRepositoryImpl::update`: every column is
rewritten, each taken from the request when present and from the previously
read row `car` otherwise; `completed_service_campaigns` is stored verbatim
from the request when the request carries it. -/
def merge_car_row (car : Car) (req : UpdateCarRequest) (now : Int) (r : Car) : Car :=
  { r with
    brand_id := req.brand_id.getD car.brand_id,
    model_id := req.model_id.getD car.model_id,
    year := req.year.getD car.year,
    price := req.price.getD car.price,
    mileage := req.mileage.getD car.mileage,
    color := req.color.getD car.color,
    vin := req.vin.getD car.vin,
    fuel_type := req.fuel_type.getD car.fuel_type,
    transmission := req.transmission.getD car.transmission,
    status := req.status.getD car.status,
    completed_service_campaigns :=
      req.completed_service_campaigns.getD car.completed_service_campaigns,
    updated_at := now }

/-- Embeds `CarRepositoryImpl::update` (lines 198-258): reads the current row, then
runs `UPDATE cars SET ... WHERE id = $13` with the merged column values. -/
def car_update (db : List Car) (id : Nat) (req : UpdateCarRequest) (now : Int) :
    List Car × Option Car :=
  match car_find_by_id db id with
  | none => (db, none)
  | some car =>
      (db.map (fun r => if r.id == id then merge_car_row car req now r else r),
       (db.find? (fun r => r.id == id)).map (merge_car_row car req now))

/-- The `WHERE` clause of `add_completed_campaign`:
`id = $3 AND NOT $1 = ANY(completed_service_campaigns)`. -/
def addCampaignHit (car_id campaign_id : Nat) (r : Car) : Bool :=
  r.id == car_id && !(decide (campaign_id ∈ r.completed_service_campaigns))

/-- The `SET` clause of `add_completed_campaign`:
`array_append(completed_service_campaigns, $1)` plus the `updated_at`
refresh. -/
def add_campaign_row (campaign_id : Nat) (now : Int) (r : Car) : Car :=
  { r with
    completed_service_campaigns := r.completed_service_campaigns ++ [campaign_id],
    updated_at := now }

/-- Embeds `add_completed_campaign` (lines 301-322): appends the campaign and
refreshes `updated_at` on the row whose id matches and which does not yet
contain the campaign; `fetch_optional` on `RETURNING` yields the affected
row, or `None` when no row qualified. -/
def add_completed_campaign (db : List Car) (car_id campaign_id : Nat) (now : Int) :
    List Car × Option Car :=
  (db.map (fun r =>
     if addCampaignHit car_id campaign_id r then add_campaign_row campaign_id now r else r),
   (db.find? (addCampaignHit car_id campaign_id)).map (add_campaign_row campaign_id now))

/-- The `SET` clause of `remove_completed_campaign`:
`array_remove(completed_service_campaigns, $1)` deletes every occurrence,
and `updated_at` is refreshed. -/
def remove_campaign_row (campaign_id : Nat) (now : Int) (r : Car) : Car :=
  { r with
    completed_service_campaigns :=
      r.completed_service_campaigns.filter (fun c => !(c == campaign_id)),
    updated_at := now }

/-- Embeds `remove_completed_campaign` (lines 324-344): applies `remove_campaign_row`
unconditionally to the row whose id matches. -/
def remove_completed_campaign (db : List Car) (car_id campaign_id : Nat) (now : Int) :
    List Car × Option Car :=
  (db.map (fun r => if r.id == car_id then remove_campaign_row campaign_id now r else r),
   (db.find? (fun r => r.id == car_id)).map (remove_campaign_row campaign_id now))

/-- The `SET` clause of `clear_completed_campaigns`: the set becomes the
empty array and `updated_at` is refreshed. -/
def clear_campaign_row (now : Int) (r : Car) : Car :=
  { r with completed_service_campaigns := ([] : List Nat), updated_at := now }

/-- Embeds `clear_completed_campaigns` (lines 346-365): applies `clear_campaign_row`
to the row whose id matches. -/
def clear_completed_campaigns (db : List Car) (car_id : Nat) (now : Int) :
    List Car × Option Car :=
  (db.map (fun r => if r.id == car_id then clear_campaign_row now r else r),
   (db.find? (fun r => r.id == car_id)).map (clear_campaign_row now))

/-- Descending order on `created_at`, the `ORDER BY created_at DESC` of the
car queries. -/
def carCreatedDesc (a b : Car) : Prop := b.created_at ≤ a.created_at

instance : DecidableRel carCreatedDesc := fun a b => by
  unfold carCreatedDesc; infer_instance

instance : IsTotal Car carCreatedDesc := ⟨by intro a b; unfold carCreatedDesc; omega⟩

instance : IsTrans Car carCreatedDesc := ⟨by intro a b c hab hbc; unfold carCreatedDesc at *; omega⟩

/-- Embeds `get_cars_by_completed_campaign` (lines 367-382): a plain `SELECT` of the
cars whose completed set contains the campaign, ordered by `created_at DESC`;
presented as a state transformer to make explicit that it writes nothing. -/
def get_cars_by_completed_campaign (db : List Car) (campaign_id : Nat) :
    List Car × List Car :=
  (db,
   List.insertionSort carCreatedDesc
     (db.filter (fun r => decide (campaign_id ∈ r.completed_service_campaigns))))

/-! ### Campaign data model (src/models/service_campaigns.rs)

`ServiceCampaignRow` is the stored table row, whose `status` column is free
text; `ServiceCampaign` is the Rust model struct with the parsed status
enumeration. -/

inductive ServiceCampaignStatus where
  | Active
  | Completed
  | Cancelled
deriving DecidableEq, Repr

structure ServiceCampaignRow where
  id : Nat
  article : String
  name : String
  description : Option String
  brand_id : Nat
  car_model_id : Nat
  target_vins : List String
  required_parts : List Nat
  required_works : List Nat
  is_mandatory : Bool
  is_completed : Bool
  status : String
  created_at : Int
  updated_at : Int
deriving DecidableEq, Repr

structure ServiceCampaign where
  id : Nat
  article : String
  name : String
  description : Option String
  brand_id : Nat
  car_model_id : Nat
  target_vins : List String
  required_parts : List Nat
  required_works : List Nat
  is_mandatory : Bool
  is_completed : Bool
  status : ServiceCampaignStatus
  created_at : Int
  updated_at : Int
deriving DecidableEq, Repr

/-- Rust `str::to_lowercase` restricted to the per-character lowering that
the stored status words exercise (they are ASCII). -/
def rust_to_lowercase (s : String) : String :=
  ⟨s.data.map Char.toLower⟩

/-- Embeds `status_from_str` (src/repositories/service_campaign_repository.rs,
lines 39-46): lowercases the stored text, maps the three known words, and
silently defaults every other value to `Active`. -/
def status_from_str (s : String) : ServiceCampaignStatus :=
  if rust_to_lowercase s = "active" then ServiceCampaignStatus.Active
  else if rust_to_lowercase s = "completed" then ServiceCampaignStatus.Completed
  else if rust_to_lowercase s = "cancelled" then ServiceCampaignStatus.Cancelled
  else ServiceCampaignStatus.Active

/-- The inline status mapping of `get_pending_campaigns_for_car`
(src/repositories/car_repository.rs, lines 416-421): matches the raw stored
text (no lowercasing) and defaults everything unrecognized to `Active`. -/
def pending_row_status (s : String) : ServiceCampaignStatus :=
  if s = "active" then ServiceCampaignStatus.Active
  else if s = "completed" then ServiceCampaignStatus.Completed
  else if s = "cancelled" then ServiceCampaignStatus.Cancelled
  else ServiceCampaignStatus.Active

/-- The row-to-struct conversion inside `get_pending_campaigns_for_car`
(lines 415-439). -/
def row_to_pending_campaign (row : ServiceCampaignRow) : ServiceCampaign :=
  { id := row.id
    article := row.article
    name := row.name
    description := row.description
    brand_id := row.brand_id
    car_model_id := row.car_model_id
    target_vins := row.target_vins
    required_parts := row.required_parts
    required_works := row.required_works
    is_mandatory := row.is_mandatory
    is_completed := row.is_completed
    status := pending_row_status row.status
    created_at := row.created_at
    updated_at := row.updated_at }

/-- The `WHERE` clause of the campaign query in
`get_pending_campaigns_for_car` (lines 392-410): raw status text equals
`'active'`, VIN wildcard or membership, brand and model match, and the
campaign is not in the car completed set. -/
def pendingEligible (car : Car) (row : ServiceCampaignRow) : Bool :=
  row.status == "active" &&
  (row.target_vins.isEmpty || decide (car.vin ∈ row.target_vins)) &&
  row.brand_id == car.brand_id &&
  row.car_model_id == car.model_id &&
  !(decide (row.id ∈ car.completed_service_campaigns))

/-- Sort key rank for `ORDER BY is_mandatory DESC`: in Postgres
`true > false`, so mandatory rows rank ahead. -/
def mandatoryRank (r : ServiceCampaignRow) : Nat :=
  if r.is_mandatory then 0 else 1

/-- The total preorder realising
`ORDER BY sc.is_mandatory DESC, sc.created_at DESC`. -/
def pendingOrder (a b : ServiceCampaignRow) : Prop :=
  mandatoryRank a < mandatoryRank b ∨
    (mandatoryRank a = mandatoryRank b ∧ b.created_at ≤ a.created_at)

instance : DecidableRel pendingOrder := fun a b => by
  unfold pendingOrder; infer_instance

instance : IsTotal ServiceCampaignRow pendingOrder :=
  ⟨by intro a b; unfold pendingOrder; omega⟩

instance : IsTrans ServiceCampaignRow pendingOrder :=
  ⟨by intro a b c hab hbc; unfold pendingOrder at *; omega⟩

/-- Embeds `get_pending_campaigns_for_car` (src/repositories/car_repository.rs,
lines 384-442): returns `[]` when the car does not exist; otherwise filters
the campaign table by `pendingEligible`, orders by mandatory-first then
newest-first, and converts each row through `row_to_pending_campaign`. -/
def get_pending_campaigns_for_car (cars : List Car) (campaigns : List ServiceCampaignRow)
    (car_id : Nat) : List ServiceCampaign :=
  match car_find_by_id cars car_id with
  | none => []
  | some car =>
      (List.insertionSort pendingOrder (campaigns.filter (pendingEligible car))).map
        row_to_pending_campaign

/-! ### Generic helper lemmas about the table-as-list embedding -/

/-- An `UPDATE` whose `WHERE` clause matches no row leaves the table
unchanged. -/
lemma map_if_no_hit {α : Type} (db : List α) (hit : α → Bool) (f : α → α)
    (h : ∀ r ∈ db, hit r = false) :
    db.map (fun r => if hit r then f r else r) = db := by
  conv_rhs => rw [← List.map_id db]
  exact List.map_congr_left (fun a ha => by simp [h a ha])

/-- If the first row satisfying `p` also satisfies the stronger predicate
`q` (stronger: `q` implies `p`), it is also the first row satisfying `q`. -/
lemma find?_of_stronger {α : Type} {l : List α} {p q : α → Bool}
    (hpq : ∀ r, q r = true → p r = true) {a : α}
    (h : l.find? p = some a) (ha : q a = true) : l.find? q = some a := by
  induction l with
  | nil => simp at h
  | cons x xs ih =>
    by_cases hx : p x = true
    · rw [List.find?_cons_of_pos _ hx] at h
      obtain rfl : x = a := by simpa using h
      rw [List.find?_cons_of_pos _ ha]
    · have hqx : ¬ q x = true := fun hq => hx (hpq x hq)
      rw [List.find?_cons_of_neg _ (by simpa using hx)] at h
      rw [List.find?_cons_of_neg _ (by simpa using hqx)]
      exact ih h

/-- A hit of the stock-movement `WHERE` clause is a row of the addressed
part. -/
lemma stockHit_part_id {p : Nat} {req : StockMovementRequest} {r : WarehouseItem}
    (h : stockHit p req r = true) : r.part_id = p := by
  unfold stockHit at h
  rw [Bool.and_eq_true] at h
  simpa using h.1

/-- The stock-movement `WHERE` clause specialised to `Outgoing`. -/
lemma stockHit_outgoing (p : Nat) (q : Int) (r : WarehouseItem) :
    stockHit p ⟨q, StockMovementType.Outgoing⟩ r =
      (r.part_id == p && decide (q ≤ r.quantity)) := rfl

/-- Applying `applyMovementRow` never changes the identity column. -/
lemma applyMovementRow_part_id (req : StockMovementRequest) (now : Int) (r : WarehouseItem) :
    (applyMovementRow req now r).part_id = r.part_id := rfl

/-- Looking a part up in the updated table finds the updated image of the
row the lookup found before the update. -/
lemma find_by_part_id_update_stock_table (db : List WarehouseItem) (p : Nat)
    (req : StockMovementRequest) (now : Int) :
    find_by_part_id (update_stock_table db p req now) p =
      (find_by_part_id db p).map
        (fun r => if stockHit p req r then applyMovementRow req now r else r) := by
  unfold find_by_part_id update_stock_table
  rw [List.find?_map]
  have hcong : ((fun r : WarehouseItem => r.part_id == p) ∘
      (fun r => if stockHit p req r then applyMovementRow req now r else r)) =
      (fun r : WarehouseItem => r.part_id == p) := by
    funext r
    by_cases h : stockHit p req r = true <;>
      simp [Function.comp, h, applyMovementRow_part_id]
  rw [hcong]

/-! ### Claim C1 -/

/-- Claim C1: for a part with an existing warehouse entry, an `Outgoing`
movement of amount `q` when the stored quantity is below `q` is rejected:
the caller receives the NotFound-shaped `none` and the table — the addressed
row with every one of its fields included — is unchanged; when the stored
quantity is at least `q` the movement succeeds and the returned and stored
quantity is the old quantity minus `q`. -/
theorem update_stock_outgoing_spec
    (db : List WarehouseItem) (p : Nat) (q now : Int) (row : WarehouseItem)
    (hq : 1 ≤ q)
    (hfind : find_by_part_id db p = some row)
    (huniq : ∀ r ∈ db, r.part_id = p → r = row) :
    (row.quantity < q →
       update_stock db p ⟨q, StockMovementType.Outgoing⟩ now = (db, none) ∧
       update_stock_handler db p ⟨q, StockMovementType.Outgoing⟩ now =
         (db, StockUpdateResponse.notFound "Warehouse item not found or insufficient stock")) ∧
    (q ≤ row.quantity →
       (update_stock db p ⟨q, StockMovementType.Outgoing⟩ now).2 =
         some { row with quantity := row.quantity - q, updated_at := now } ∧
       find_by_part_id (update_stock db p ⟨q, StockMovementType.Outgoing⟩ now).1 p =
         some { row with quantity := row.quantity - q, updated_at := now }) := by
  have hfind0 : db.find? (fun r => r.part_id == p) = some row := hfind
  have hmem : row ∈ db := List.mem_of_find?_eq_some hfind0
  have hpid : row.part_id = p := by simpa using List.find?_some hfind0
  constructor
  · intro hlt
    have hno : ∀ r ∈ db, stockHit p ⟨q, StockMovementType.Outgoing⟩ r = false := by
      intro r hr
      rw [stockHit_outgoing]
      by_cases hp : r.part_id = p
      · have hr2 : r = row := huniq r hr hp
        subst hr2
        simp only [hp, beq_self_eq_true, Bool.true_and, decide_eq_false_iff_not]
        omega
      · simp [hp]
    have hcount : db.countP (stockHit p ⟨q, StockMovementType.Outgoing⟩) = 0 :=
      List.countP_eq_zero.mpr (by intro a ha; simp [hno a ha])
    have hrepo : update_stock db p ⟨q, StockMovementType.Outgoing⟩ now = (db, none) := by
      unfold update_stock
      rw [hcount]
      simp
    have hvalid : stockMovementValid ⟨q, StockMovementType.Outgoing⟩ = true := by
      simpa [stockMovementValid] using hq
    refine ⟨hrepo, ?_⟩
    unfold update_stock_handler
    rw [hvalid, hrepo]
    simp
  · intro hge
    have hhit : stockHit p ⟨q, StockMovementType.Outgoing⟩ row = true := by
      rw [stockHit_outgoing]; simp [hpid, hge]
    have hpos : 0 < db.countP (stockHit p ⟨q, StockMovementType.Outgoing⟩) :=
      List.countP_pos_iff.mpr ⟨row, hmem, hhit⟩
    unfold update_stock
    rw [if_pos hpos]
    have hval : find_by_part_id (update_stock_table db p ⟨q, StockMovementType.Outgoing⟩ now) p =
        some { row with quantity := row.quantity - q, updated_at := now } := by
      rw [find_by_part_id_update_stock_table]
      unfold find_by_part_id
      rw [hfind0]
      simp [hhit, applyMovementRow]
    exact ⟨hval, hval⟩

def wItemA : WarehouseItem :=
  { id := 0, part_id := 1, quantity := 10, min_stock_level := 5, max_stock_level := 100,
    location := none, created_at := 0, updated_at := 0 }

/-- Witness for claim C1: entry with quantity 10; `Outgoing 12` is rejected
with the table unchanged, `Outgoing 7` succeeds with quantity 3. -/
theorem update_stock_outgoing_spec_witness :
    (update_stock [wItemA] 1 ⟨12, StockMovementType.Outgoing⟩ 9 = ([wItemA], none) ∧
     update_stock_handler [wItemA] 1 ⟨12, StockMovementType.Outgoing⟩ 9 =
       ([wItemA], StockUpdateResponse.notFound
          "Warehouse item not found or insufficient stock")) ∧
    (update_stock [wItemA] 1 ⟨7, StockMovementType.Outgoing⟩ 9).2 =
      some { wItemA with quantity := wItemA.quantity - 7, updated_at := 9 } :=
  ⟨(update_stock_outgoing_spec [wItemA] 1 12 9 wItemA (by decide) (by decide)
      (by decide)).1 (by decide),
   ((update_stock_outgoing_spec [wItemA] 1 7 9 wItemA (by decide) (by decide)
      (by decide)).2 (by decide)).1⟩

/-! ### Claim C2 -/

/-- Claim C2: when every warehouse row carries a non-negative quantity and
the movement amount is positive, every row still carries a non-negative
quantity after `update_stock`, whatever the movement type. -/
theorem update_stock_preserves_nonneg
    (db : List WarehouseItem) (p : Nat) (req : StockMovementRequest) (now : Int)
    (hq : 0 < req.quantity) (hnn : ∀ r ∈ db, 0 ≤ r.quantity) :
    ∀ r ∈ (update_stock db p req now).1, 0 ≤ r.quantity := by
  intro r hr
  unfold update_stock at hr
  by_cases hc : 0 < db.countP (stockHit p req)
  · rw [if_pos hc] at hr
    unfold update_stock_table at hr
    simp only [List.mem_map] at hr
    obtain ⟨s, hs, rfl⟩ := hr
    by_cases hhit : stockHit p req s = true
    · rw [if_pos hhit]
      have hsq : 0 ≤ s.quantity := hnn s hs
      unfold applyMovementRow
      cases hmt : req.movement_type with
      | Incoming => simp only []; omega
      | Outgoing =>
        unfold stockHit at hhit
        rw [hmt, Bool.and_eq_true] at hhit
        have hle : req.quantity ≤ s.quantity := by simpa using hhit.2
        simp only []
        omega
      | Adjustment => simp only []; omega
    · rw [if_neg hhit]
      exact hnn s hs
  · rw [if_neg hc] at hr
    exact hnn r hr

/-- Witness for claim C2: a ledger with one row of quantity 5, an `Outgoing`
movement of 3. -/
theorem update_stock_preserves_nonneg_witness :
    0 ≤ ({ wItemA with quantity := 7, updated_at := 9 } : WarehouseItem).quantity :=
  update_stock_preserves_nonneg [wItemA] 1 ⟨3, StockMovementType.Outgoing⟩ 9
    (by decide) (by decide) { wItemA with quantity := 7, updated_at := 9 } (by decide)

/-! ### Claim C10 -/

/-- Claim C10: a successful `update_stock` keeps the table length, keeps
`id`, `part_id`, `min_stock_level`, `max_stock_level`, `location` and
`created_at` of every row, and leaves every row of a different part
completely unchanged. -/
theorem update_stock_frame
    (db : List WarehouseItem) (p : Nat) (req : StockMovementRequest) (now : Int)
    (item : WarehouseItem)
    (hsucc : (update_stock db p req now).2 = some item) :
    (update_stock db p req now).1.length = db.length ∧
    ∀ i (h1 : i < db.length) (h2 : i < (update_stock db p req now).1.length),
      ((update_stock db p req now).1.get ⟨i, h2⟩).id = (db.get ⟨i, h1⟩).id ∧
      ((update_stock db p req now).1.get ⟨i, h2⟩).part_id = (db.get ⟨i, h1⟩).part_id ∧
      ((update_stock db p req now).1.get ⟨i, h2⟩).min_stock_level =
        (db.get ⟨i, h1⟩).min_stock_level ∧
      ((update_stock db p req now).1.get ⟨i, h2⟩).max_stock_level =
        (db.get ⟨i, h1⟩).max_stock_level ∧
      ((update_stock db p req now).1.get ⟨i, h2⟩).location = (db.get ⟨i, h1⟩).location ∧
      ((update_stock db p req now).1.get ⟨i, h2⟩).created_at = (db.get ⟨i, h1⟩).created_at ∧
      ((db.get ⟨i, h1⟩).part_id ≠ p →
        (update_stock db p req now).1.get ⟨i, h2⟩ = db.get ⟨i, h1⟩) := by
  by_cases hc : 0 < db.countP (stockHit p req)
  · have h1eq : (update_stock db p req now).1 = update_stock_table db p req now := by
      unfold update_stock
      rw [if_pos hc]
    rw [h1eq]
    unfold update_stock_table
    refine ⟨by simp, ?_⟩
    intro i h1 h2
    have hget : (db.map (fun r => if stockHit p req r then applyMovementRow req now r else r)).get
        ⟨i, h2⟩ = (fun r => if stockHit p req r then applyMovementRow req now r else r)
          (db.get ⟨i, h1⟩) := by
      simp [List.get_eq_getElem, List.getElem_map]
    rw [hget]
    cases hhit : stockHit p req (db.get ⟨i, h1⟩) with
    | true =>
      simp only [hhit, ite_true]
      refine ⟨rfl, rfl, rfl, rfl, rfl, rfl, ?_⟩
      intro hne
      exact absurd (stockHit_part_id hhit) hne
    | false =>
      simp only [hhit, ite_false]
      exact ⟨rfl, rfl, rfl, rfl, rfl, rfl, fun _ => rfl⟩
  · have h1eq : (update_stock db p req now).1 = db := by
      unfold update_stock
      rw [if_neg hc]
    rw [h1eq]
    exact ⟨rfl, fun i h1 h2 => ⟨rfl, rfl, rfl, rfl, rfl, rfl, fun _ => rfl⟩⟩

def wItemB : WarehouseItem :=
  { id := 3, part_id := 2, quantity := 4, min_stock_level := 1, max_stock_level := 50,
    location := some "shelf", created_at := 2, updated_at := 2 }

/-- Witness for claim C10: a successful `Incoming` movement on part 1 in a
two-row ledger. -/
theorem update_stock_frame_witness :
    (update_stock [wItemA, wItemB] 1 ⟨5, StockMovementType.Incoming⟩ 9).2 =
      some { wItemA with quantity := 15, updated_at := 9 } ∧
    (update_stock [wItemA, wItemB] 1 ⟨5, StockMovementType.Incoming⟩ 9).1.length = 2 ∧
    ∀ i (h1 : i < ([wItemA, wItemB] : List WarehouseItem).length)
      (h2 : i < (update_stock [wItemA, wItemB] 1 ⟨5, StockMovementType.Incoming⟩ 9).1.length),
      ((update_stock [wItemA, wItemB] 1 ⟨5, StockMovementType.Incoming⟩ 9).1.get ⟨i, h2⟩).part_id =
        (([wItemA, wItemB] : List WarehouseItem).get ⟨i, h1⟩).part_id := by
  have h := update_stock_frame [wItemA, wItemB] 1 ⟨5, StockMovementType.Incoming⟩ 9
    { wItemA with quantity := 15, updated_at := 9 } (by decide)
  exact ⟨by decide, h.1, fun i h1 h2 => ((h.2 i h1 h2).2).1⟩

/-! ### Claim C5 -/

/-- A hit of the `add_completed_campaign` `WHERE` clause is a row of the
addressed car. -/
lemma addCampaignHit_id {v c : Nat} {r : Car} (h : addCampaignHit v c r = true) : r.id = v := by
  unfold addCampaignHit at h
  rw [Bool.and_eq_true] at h
  simpa using h.1

/-- A hit of the `add_completed_campaign` `WHERE` clause does not yet contain
the campaign. -/
lemma addCampaignHit_not_mem {v c : Nat} {r : Car} (h : addCampaignHit v c r = true) :
    c ∉ r.completed_service_campaigns := by
  unfold addCampaignHit at h
  rw [Bool.and_eq_true] at h
  simpa using h.2

/-- After `add_completed_campaign`, every row of the addressed car contains
the campaign. -/
lemma add_completed_campaign_mem (db : List Car) (v c : Nat) (now : Int) :
    ∀ r ∈ (add_completed_campaign db v c now).1, r.id = v →
      c ∈ r.completed_service_campaigns := by
  intro r hr hid
  unfold add_completed_campaign at hr
  simp only [List.mem_map] at hr
  obtain ⟨s, hs, rfl⟩ := hr
  by_cases hhit : addCampaignHit v c s = true
  · simp [hhit, add_campaign_row]
  · rw [Bool.not_eq_true] at hhit
    simp only [hhit, ite_false] at hid ⊢
    unfold addCampaignHit at hhit
    simp at hhit
    exact hhit hid

/-- Claim C5: `add_completed_campaign` appends the campaign exactly when the
car exists and does not already carry it; a missing car or an
already-present campaign leaves the table untouched and reports the
conflated `none`; and running the operation twice leaves the same table as
running it once. -/
theorem add_completed_campaign_spec
    (db : List Car) (v c : Nat) (n1 n2 : Int) :
    (∀ car, car_find_by_id db v = some car → (∀ r ∈ db, r.id = v → r = car) →
       ((c ∉ car.completed_service_campaigns →
           (add_completed_campaign db v c n1).2 =
             some { car with
               completed_service_campaigns := car.completed_service_campaigns ++ [c],
               updated_at := n1 }) ∧
        (c ∈ car.completed_service_campaigns →
           add_completed_campaign db v c n1 = (db, none)))) ∧
    (car_find_by_id db v = none → add_completed_campaign db v c n1 = (db, none)) ∧
    ((add_completed_campaign (add_completed_campaign db v c n1).1 v c n2).1 =
       (add_completed_campaign db v c n1).1) := by
  refine ⟨?_, ?_, ?_⟩
  · intro car hfind huniq
    have hfind0 : db.find? (fun r => r.id == v) = some car := hfind
    have hid : car.id = v := by simpa using List.find?_some hfind0
    constructor
    · intro hnot
      have hhit : addCampaignHit v c car = true := by
        unfold addCampaignHit
        simp [hid, hnot]
      have hfq : db.find? (addCampaignHit v c) = some car :=
        find?_of_stronger (fun r hr => by simpa using addCampaignHit_id hr) hfind0 hhit
      unfold add_completed_campaign
      simp [hfq, add_campaign_row]
    · intro hmemc
      have hno : ∀ r ∈ db, addCampaignHit v c r = false := by
        intro r hr
        unfold addCampaignHit
        by_cases hp : r.id = v
        · have hr2 : r = car := huniq r hr hp
          subst hr2
          simp [hmemc]
        · simp [hp]
      have hfq : db.find? (addCampaignHit v c) = none :=
        List.find?_eq_none.mpr (by intro a ha; simp [hno a ha])
      unfold add_completed_campaign
      rw [map_if_no_hit db (addCampaignHit v c) _ hno, hfq]
      rfl
  · intro hnone
    have hnone0 : db.find? (fun r => r.id == v) = none := hnone
    have hno : ∀ r ∈ db, addCampaignHit v c r = false := by
      intro r hr
      have : ¬ (r.id == v) = true := List.find?_eq_none.mp hnone0 r hr
      unfold addCampaignHit
      simp only [Bool.and_eq_true, not_and] at *
      cases h2 : (r.id == v)
      · simp
      · exact absurd h2 this
    have hfq : db.find? (addCampaignHit v c) = none :=
      List.find?_eq_none.mpr (by intro a ha; simp [hno a ha])
    unfold add_completed_campaign
    rw [map_if_no_hit db (addCampaignHit v c) _ hno, hfq]
    rfl
  · have hno : ∀ r ∈ (add_completed_campaign db v c n1).1, addCampaignHit v c r = false := by
      intro r hr
      cases hhit : addCampaignHit v c r
      · rfl
      · exact absurd (add_completed_campaign_mem db v c n1 r hr (addCampaignHit_id hhit))
          (addCampaignHit_not_mem hhit)
    conv_lhs => unfold add_completed_campaign
    exact map_if_no_hit _ (addCampaignHit v c) _ hno

def vCarA : Car :=
  { id := 1, brand_id := 2, model_id := 3, year := 2020, price := 100, mileage := 10,
    color := "red", vin := "VIN00000000000001", fuel_type := FuelType.Petrol,
    transmission := Transmission.Manual, status := CarStatus.Available,
    completed_service_campaigns := [4], created_at := 0, updated_at := 0 }

/-- Witness for claim C5: a car that has completed campaign 4; adding 7
succeeds, adding 4 again is the conflated no-op, and adding 7 twice leaves
the table of the single addition. -/
theorem add_completed_campaign_spec_witness :
    (add_completed_campaign [vCarA] 1 7 9).2 =
      some { vCarA with
        completed_service_campaigns := vCarA.completed_service_campaigns ++ [7],
        updated_at := 9 } ∧
    add_completed_campaign [vCarA] 1 4 9 = ([vCarA], none) ∧
    (add_completed_campaign (add_completed_campaign [vCarA] 1 7 9).1 1 7 11).1 =
      (add_completed_campaign [vCarA] 1 7 9).1 :=
  ⟨((add_completed_campaign_spec [vCarA] 1 7 9 11).1 vCarA (by decide) (by decide)).1
      (by decide),
   ((add_completed_campaign_spec [vCarA] 1 4 9 11).1 vCarA (by decide) (by decide)).2
      (by decide),
   (add_completed_campaign_spec [vCarA] 1 7 9 11).2.2⟩

/-! ### Claim C6 -/

/-- Claim C6: for an existing car, `remove_completed_campaign` returns the
car with every occurrence of the campaign removed and, when the campaign was
absent, the completed set it returns is exactly the stored one (a no-op on
the set); only a missing car produces the NotFound-shaped `none`, and then
the table is untouched. -/
theorem remove_completed_campaign_spec
    (db : List Car) (v c : Nat) (now : Int) :
    (∀ car, car_find_by_id db v = some car →
       ((remove_completed_campaign db v c now).2 =
          some { car with
            completed_service_campaigns :=
              car.completed_service_campaigns.filter (fun x => !(x == c)),
            updated_at := now } ∧
        (c ∉ car.completed_service_campaigns →
          (remove_completed_campaign db v c now).2 = some { car with updated_at := now }))) ∧
    (car_find_by_id db v = none → remove_completed_campaign db v c now = (db, none)) := by
  constructor
  · intro car hfind
    have hfind0 : db.find? (fun r => r.id == v) = some car := hfind
    have h2 : (remove_completed_campaign db v c now).2 =
        some (remove_campaign_row c now car) := by
      unfold remove_completed_campaign
      simp [hfind0]
    refine ⟨h2, ?_⟩
    intro hnot
    rw [h2]
    have hfilt : car.completed_service_campaigns.filter (fun x => !(x == c)) =
        car.completed_service_campaigns := by
      refine List.filter_eq_self.mpr ?_
      intro a ha
      have hne : a ≠ c := fun heq => hnot (heq ▸ ha)
      simp [hne]
    unfold remove_campaign_row
    rw [hfilt]
  · intro hnone
    have hnone0 : db.find? (fun r => r.id == v) = none := hnone
    have hno : ∀ r ∈ db, (r.id == v) = false := by
      intro r hr
      have h := List.find?_eq_none.mp hnone0 r hr
      simpa using h
    unfold remove_completed_campaign
    rw [map_if_no_hit db (fun r => r.id == v) _ hno, hnone0]
    rfl

/-- Witness for claim C6: removing the present campaign 4 returns the car
without it; removing the absent campaign 7 returns the car with its
completed set intact; a missing car yields `none`. -/
theorem remove_completed_campaign_spec_witness :
    (remove_completed_campaign [vCarA] 1 4 9).2 =
      some { vCarA with
        completed_service_campaigns :=
          vCarA.completed_service_campaigns.filter (fun x => !(x == 4)),
        updated_at := 9 } ∧
    (remove_completed_campaign [vCarA] 1 7 9).2 = some { vCarA with updated_at := 9 } ∧
    remove_completed_campaign [vCarA] 2 7 9 = ([vCarA], none) :=
  ⟨((remove_completed_campaign_spec [vCarA] 1 4 9).1 vCarA (by decide)).1,
   ((remove_completed_campaign_spec [vCarA] 1 7 9).1 vCarA (by decide)).2 (by decide),
   (remove_completed_campaign_spec [vCarA] 2 7 9).2 (by decide)⟩

/-! ### Claim C8 (corrected) -/

def vCarB : Car :=
  { id := 6, brand_id := 2, model_id := 3, year := 2021, price := 200, mileage := 40,
    color := "blue", vin := "VIN00000000000002", fuel_type := FuelType.Diesel,
    transmission := Transmission.Automatic, status := CarStatus.Sold,
    completed_service_campaigns := [7], created_at := 1, updated_at := 5 }

/-- Counterexample to claim C8 as stated: `get_cars_by_completed_campaign`
(the fourth CompletionTracker operation, `vehiclesByCompletedCampaign`)
completes, returning the vehicle whose completed set contains campaign 7,
yet the stored table is exactly the input — the affected vehicle keeps its
old `updated_at` of 5. The operation is a plain `SELECT` and carries no
timestamp at all. -/
theorem reverse_lookup_updates_nothing :
    (get_cars_by_completed_campaign [vCarB] 7).2 = [vCarB] ∧
    (get_cars_by_completed_campaign [vCarB] 7).1 = [vCarB] ∧
    vCarB.updated_at = 5 := by decide

/-- Claim C8 as amended: the three mutating CompletionTracker operations
(`add_completed_campaign`, `remove_completed_campaign`,
`clear_completed_campaigns`) stamp the vehicle they return with the current
time; `get_cars_by_completed_campaign` is read-only and leaves the table —
every `updated_at` included — unchanged. -/
theorem completion_mutators_refresh_updated_at
    (db : List Car) (v c : Nat) (now : Int) :
    (∀ car, (add_completed_campaign db v c now).2 = some car → car.updated_at = now) ∧
    (∀ car, (remove_completed_campaign db v c now).2 = some car → car.updated_at = now) ∧
    (∀ car, (clear_completed_campaigns db v now).2 = some car → car.updated_at = now) ∧
    (get_cars_by_completed_campaign db c).1 = db := by
  refine ⟨?_, ?_, ?_, rfl⟩
  · intro car h
    simp only [add_completed_campaign, Option.map_eq_some'] at h
    obtain ⟨r, hr, rfl⟩ := h
    rfl
  · intro car h
    simp only [remove_completed_campaign, Option.map_eq_some'] at h
    obtain ⟨r, hr, rfl⟩ := h
    rfl
  · intro car h
    simp only [clear_completed_campaigns, Option.map_eq_some'] at h
    obtain ⟨r, hr, rfl⟩ := h
    rfl

/-- Witness for the amended claim C8: the car returned by a concrete
`add_completed_campaign` carries the supplied timestamp, and a concrete
reverse lookup leaves the table unchanged. -/
theorem completion_mutators_refresh_updated_at_witness :
    ({ vCarA with
        completed_service_campaigns := vCarA.completed_service_campaigns ++ [7],
        updated_at := 9 } : Car).updated_at = 9 ∧
    (get_cars_by_completed_campaign [vCarA] 4).1 = [vCarA] :=
  ⟨(completion_mutators_refresh_updated_at [vCarA] 1 7 9).1 _ (by decide),
   (completion_mutators_refresh_updated_at [vCarA] 1 7 9).2.2.2⟩

/-! ### Claim C4 (corrected) -/

def vReqDup : UpdateCarRequest :=
  { brand_id := none, model_id := none, year := none, price := none, mileage := none,
    color := none, vin := none, fuel_type := none, transmission := none, status := none,
    completed_service_campaigns := some [7, 7] }

def vReqNone : UpdateCarRequest :=
  { brand_id := none, model_id := none, year := none, price := none, mileage := none,
    color := none, vin := none, fuel_type := none, transmission := none, status := none,
    completed_service_campaigns := none }

/-- Counterexample to claim C4 as stated: `CarRepositoryImpl::update` — one
of the operations named by the claim — stores the caller-supplied sequence
`[7, 7]` verbatim, so after this update the stored vehicle's
`completed_service_campaigns` contains campaign 7 twice. -/
theorem car_update_introduces_duplicate :
    ((car_update [vCarA] 1 vReqDup 9).2.map
        (fun r => r.completed_service_campaigns)) = some [7, 7] ∧
    ∃ r ∈ (car_update [vCarA] 1 vReqDup 9).1,
      ¬ r.completed_service_campaigns.Nodup := by decide

/-- Claim C4 as amended: the three CompletionTracker writers
(`add_completed_campaign`, `remove_completed_campaign`,
`clear_completed_campaigns`) never introduce a duplicate into any vehicle's
completed set; `CarRepositoryImpl::update` preserves duplicate-freedom only
under the extra proviso that the replacement list it is handed (when there
is one) is itself duplicate-free, because it stores that list verbatim. -/
theorem completed_campaigns_nodup_preserved
    (db : List Car) (v c uid : Nat) (now : Int) (req : UpdateCarRequest)
    (hdb : ∀ r ∈ db, r.completed_service_campaigns.Nodup)
    (hreq : ∀ l, req.completed_service_campaigns = some l → l.Nodup) :
    (∀ r ∈ (add_completed_campaign db v c now).1, r.completed_service_campaigns.Nodup) ∧
    (∀ r ∈ (remove_completed_campaign db v c now).1, r.completed_service_campaigns.Nodup) ∧
    (∀ r ∈ (clear_completed_campaigns db v now).1, r.completed_service_campaigns.Nodup) ∧
    (∀ r ∈ (car_update db uid req now).1, r.completed_service_campaigns.Nodup) := by
  refine ⟨?_, ?_, ?_, ?_⟩
  · intro r hr
    simp only [add_completed_campaign, List.mem_map] at hr
    obtain ⟨s, hs, rfl⟩ := hr
    by_cases hhit : addCampaignHit v c s = true
    · simp only [hhit, ite_true]
      unfold add_campaign_row
      simp only []
      have hnot := addCampaignHit_not_mem hhit
      simp [List.nodup_append, hdb s hs, hnot]
    · simp only [hhit, ite_false]
      exact hdb s hs
  · intro r hr
    simp only [remove_completed_campaign, List.mem_map] at hr
    obtain ⟨s, hs, rfl⟩ := hr
    by_cases hid : (s.id == v) = true
    · simp only [hid, ite_true]
      exact (hdb s hs).filter _
    · simp only [hid, ite_false]
      exact hdb s hs
  · intro r hr
    simp only [clear_completed_campaigns, List.mem_map] at hr
    obtain ⟨s, hs, rfl⟩ := hr
    by_cases hid : (s.id == v) = true
    · simp [hid, clear_campaign_row]
    · simp only [hid, ite_false]
      exact hdb s hs
  · intro r hr
    cases hfind : car_find_by_id db uid with
    | none =>
      simp only [car_update, hfind] at hr
      exact hdb r hr
    | some car =>
      simp only [car_update, hfind, List.mem_map] at hr
      obtain ⟨s, hs, rfl⟩ := hr
      by_cases hid : (s.id == uid) = true
      · simp only [hid, ite_true]
        unfold merge_car_row
        simp only []
        cases hrc : req.completed_service_campaigns with
        | none =>
          simp only [hrc, Option.getD_none]
          have hfind0 : db.find? (fun r => r.id == uid) = some car := hfind
          have hcarmem : car ∈ db := List.mem_of_find?_eq_some hfind0
          exact hdb car hcarmem
        | some l =>
          simp only [hrc, Option.getD_some]
          exact hreq l hrc
      · simp only [hid, ite_false]
        exact hdb s hs

/-- Witness for the amended claim C4 at a one-car table with completed set
`[4]`: all four operations keep every completed set duplicate-free. -/
theorem completed_campaigns_nodup_preserved_witness :
    ({ vCarA with
        completed_service_campaigns := vCarA.completed_service_campaigns ++ [7],
        updated_at := 9 } : Car).completed_service_campaigns.Nodup :=
  (completed_campaigns_nodup_preserved [vCarA] 1 7 1 9 vReqNone (by decide)
    (fun l h => by cases h)).1
    { vCarA with
      completed_service_campaigns := vCarA.completed_service_campaigns ++ [7],
      updated_at := 9 } (by decide)

/-! ### Claim C9 -/

/-- Claim C9: a stored campaign status whose lowercase form is none of
`active`, `completed`, `cancelled` is parsed as `Active` — silently
defaulting rather than failing — both by the repository helper
`status_from_str` and by the inline mapping that
`get_pending_campaigns_for_car` applies to the rows it returns. -/
theorem unknown_status_parses_active (s : String)
    (h : rust_to_lowercase s ∉ (["active", "completed", "cancelled"] : List String)) :
    status_from_str s = ServiceCampaignStatus.Active ∧
    pending_row_status s = ServiceCampaignStatus.Active := by
  simp only [List.mem_cons, List.not_mem_nil, or_false, not_or] at h
  obtain ⟨h1, h2, h3⟩ := h
  constructor
  · simp [status_from_str, h1, h2, h3]
  · have g1 : s ≠ "active" := by rintro rfl; exact h1 (by decide)
    have g2 : s ≠ "completed" := by rintro rfl; exact h2 (by decide)
    have g3 : s ≠ "cancelled" := by rintro rfl; exact h3 (by decide)
    simp [pending_row_status, g1, g2, g3]

/-- Witness for claim C9 at the stored status text `Archived`. -/
theorem unknown_status_parses_active_witness :
    rust_to_lowercase "Archived" ∉ (["active", "completed", "cancelled"] : List String) ∧
    status_from_str "Archived" = ServiceCampaignStatus.Active ∧
    pending_row_status "Archived" = ServiceCampaignStatus.Active :=
  ⟨by decide, (unknown_status_parses_active "Archived" (by decide)).1,
   (unknown_status_parses_active "Archived" (by decide)).2⟩

/-! ### Claim C3 -/

/-- Over the three canonical stored status words, parsing to `Active` is the
same as the raw text being `active` — the comparison the SQL filter
performs. -/
lemma active_status_iff (s : String)
    (hst : s = "active" ∨ s = "completed" ∨ s = "cancelled") :
    pending_row_status s = ServiceCampaignStatus.Active ↔ s = "active" := by
  constructor
  · intro h
    rcases hst with rfl | rfl | rfl
    · rfl
    · exact absurd h (by decide)
    · exact absurd h (by decide)
  · rintro rfl
    decide

/-- The SQL `WHERE` clause of the eligibility query, re-read through the
converted campaign. -/
lemma pendingEligible_iff (car : Car) (row : ServiceCampaignRow)
    (hst : row.status = "active" ∨ row.status = "completed" ∨ row.status = "cancelled") :
    pendingEligible car row = true ↔
      ((row_to_pending_campaign row).status = ServiceCampaignStatus.Active ∧
       ((row_to_pending_campaign row).target_vins = [] ∨
          car.vin ∈ (row_to_pending_campaign row).target_vins) ∧
       (row_to_pending_campaign row).brand_id = car.brand_id ∧
       (row_to_pending_campaign row).car_model_id = car.model_id ∧
       (row_to_pending_campaign row).id ∉ car.completed_service_campaigns) := by
  have hsa := active_status_iff row.status hst
  unfold pendingEligible
  simp only [row_to_pending_campaign, Bool.and_eq_true, Bool.or_eq_true, beq_iff_eq,
    decide_eq_true_eq, Bool.not_eq_true', decide_eq_false_iff_not, List.isEmpty_iff]
  constructor
  · rintro ⟨⟨⟨⟨h1, h2⟩, h3⟩, h4⟩, h5⟩
    exact ⟨hsa.mpr h1, h2, h3, h4, h5⟩
  · rintro ⟨h1, h2, h3, h4, h5⟩
    exact ⟨⟨⟨⟨hsa.mp h1, h2⟩, h3⟩, h4⟩, h5⟩

/-- Claim C3: when the stored statuses are the canonical words, the
campaigns returned for an existing car are exactly those that are Active,
whose VIN targeting is empty (wildcard) or contains the car's VIN, whose
brand and model match the car, and which the car has not completed. -/
theorem pending_campaigns_membership
    (cars : List Car) (campaigns : List ServiceCampaignRow) (car_id : Nat) (car : Car)
    (hcar : car_find_by_id cars car_id = some car)
    (hstatus : ∀ row ∈ campaigns,
       row.status = "active" ∨ row.status = "completed" ∨ row.status = "cancelled") :
    ∀ camp : ServiceCampaign,
      camp ∈ get_pending_campaigns_for_car cars campaigns car_id ↔
        ∃ row ∈ campaigns, camp = row_to_pending_campaign row ∧
          camp.status = ServiceCampaignStatus.Active ∧
          (camp.target_vins = [] ∨ car.vin ∈ camp.target_vins) ∧
          camp.brand_id = car.brand_id ∧
          camp.car_model_id = car.model_id ∧
          camp.id ∉ car.completed_service_campaigns := by
  intro camp
  unfold get_pending_campaigns_for_car
  rw [hcar]
  simp only [List.mem_map, List.mem_insertionSort, List.mem_filter]
  constructor
  · rintro ⟨row, ⟨hrow, helig⟩, rfl⟩
    exact ⟨row, hrow, rfl, (pendingEligible_iff car row (hstatus row hrow)).mp helig⟩
  · rintro ⟨row, hrow, rfl, hconds⟩
    exact ⟨row, ⟨hrow, (pendingEligible_iff car row (hstatus row hrow)).mpr hconds⟩, rfl⟩

def vCampA : ServiceCampaignRow :=
  { id := 10, article := "SC-1", name := "airbag", description := none, brand_id := 2,
    car_model_id := 3, target_vins := [], required_parts := [], required_works := [],
    is_mandatory := true, is_completed := false, status := "active",
    created_at := 40, updated_at := 40 }

def vCampB : ServiceCampaignRow :=
  { id := 11, article := "SC-2", name := "recall", description := none, brand_id := 2,
    car_model_id := 3, target_vins := ["OTHERVIN"], required_parts := [],
    required_works := [], is_mandatory := false, is_completed := false,
    status := "active", created_at := 50, updated_at := 50 }

/-- Witness for claim C3: a wildcard-targeted campaign is pending for the
car, and the VIN-targeted campaign for a different VIN satisfies the
membership equivalence as well (it is not returned). -/
theorem pending_campaigns_membership_witness :
    (row_to_pending_campaign vCampA ∈
        get_pending_campaigns_for_car [vCarA] [vCampA, vCampB] 1 ↔
      ∃ row ∈ [vCampA, vCampB], row_to_pending_campaign vCampA = row_to_pending_campaign row ∧
        (row_to_pending_campaign vCampA).status = ServiceCampaignStatus.Active ∧
        ((row_to_pending_campaign vCampA).target_vins = [] ∨
          vCarA.vin ∈ (row_to_pending_campaign vCampA).target_vins) ∧
        (row_to_pending_campaign vCampA).brand_id = vCarA.brand_id ∧
        (row_to_pending_campaign vCampA).car_model_id = vCarA.model_id ∧
        (row_to_pending_campaign vCampA).id ∉ vCarA.completed_service_campaigns) :=
  pending_campaigns_membership [vCarA] [vCampA, vCampB] 1 vCarA (by decide) (by decide)
    (row_to_pending_campaign vCampA)

/-! ### Claim C7 -/

/-- Converting a row through `row_to_pending_campaign` keeps the two sort-key columns. -/
lemma row_to_pending_campaign_keys (row : ServiceCampaignRow) :
    (row_to_pending_campaign row).is_mandatory = row.is_mandatory ∧
    (row_to_pending_campaign row).created_at = row.created_at := ⟨rfl, rfl⟩

/-- Claim C7: in the list `get_pending_campaigns_for_car` returns, an
earlier element is never less mandatory than a later one (every mandatory
campaign precedes every non-mandatory one), and among elements with the same
`is_mandatory` flag the creation times are non-increasing (newest first). -/
theorem pending_campaigns_sorted
    (cars : List Car) (campaigns : List ServiceCampaignRow) (car_id : Nat)
    (i j : Nat) (a b : ServiceCampaign) (hij : i < j)
    (ha : (get_pending_campaigns_for_car cars campaigns car_id)[i]? = some a)
    (hb : (get_pending_campaigns_for_car cars campaigns car_id)[j]? = some b) :
    (b.is_mandatory = true → a.is_mandatory = true) ∧
    (a.is_mandatory = b.is_mandatory → b.created_at ≤ a.created_at) := by
  cases hfind : car_find_by_id cars car_id with
  | none =>
    unfold get_pending_campaigns_for_car at ha
    rw [hfind] at ha
    simp at ha
  | some car =>
    have hL : get_pending_campaigns_for_car cars campaigns car_id =
        (List.insertionSort pendingOrder (campaigns.filter (pendingEligible car))).map
          row_to_pending_campaign := by
      unfold get_pending_campaigns_for_car
      rw [hfind]
    rw [hL, List.getElem?_map, Option.map_eq_some'] at ha hb
    obtain ⟨ra, hra, rfl⟩ := ha
    obtain ⟨rb, hrb, rfl⟩ := hb
    rw [List.getElem?_eq_some_iff] at hra hrb
    obtain ⟨hi, hra⟩ := hra
    obtain ⟨hj, hrb⟩ := hrb
    have hsort : List.Sorted pendingOrder
        (List.insertionSort pendingOrder (campaigns.filter (pendingEligible car))) :=
      List.sorted_insertionSort pendingOrder (campaigns.filter (pendingEligible car))
    have hrel := hsort.rel_get_of_lt (a := ⟨i, hi⟩) (b := ⟨j, hj⟩) (Fin.mk_lt_mk.mpr hij)
    rw [List.get_eq_getElem, List.get_eq_getElem] at hrel
    rw [hra, hrb] at hrel
    unfold pendingOrder mandatoryRank at hrel
    have hma : (row_to_pending_campaign ra).is_mandatory = ra.is_mandatory := rfl
    have hmb : (row_to_pending_campaign rb).is_mandatory = rb.is_mandatory := rfl
    have hca : (row_to_pending_campaign ra).created_at = ra.created_at := rfl
    have hcb : (row_to_pending_campaign rb).created_at = rb.created_at := rfl
    rw [hma, hmb, hca, hcb]
    constructor
    · intro hbm
      rw [hbm] at hrel
      cases ham : ra.is_mandatory
      · rw [ham] at hrel
        simp at hrel
      · rfl
    · intro heq
      rw [heq] at hrel
      rcases hrel with h | ⟨-, h⟩
      · omega
      · exact h

/-- Witness for claim C7: in the two-campaign resolver output the mandatory,
older campaign `vCampA` precedes the non-mandatory `vCampC`, satisfying both
ordering conclusions. -/
theorem pending_campaigns_sorted_witness :
    ((get_pending_campaigns_for_car [vCarA]
        [{ vCampB with target_vins := [] }, vCampA] 1)[0]? =
      some (row_to_pending_campaign vCampA)) ∧
    ((get_pending_campaigns_for_car [vCarA]
        [{ vCampB with target_vins := [] }, vCampA] 1)[1]? =
      some (row_to_pending_campaign { vCampB with target_vins := [] })) ∧
    (((row_to_pending_campaign { vCampB with target_vins := [] }).is_mandatory = true →
        (row_to_pending_campaign vCampA).is_mandatory = true) ∧
     ((row_to_pending_campaign vCampA).is_mandatory =
        (row_to_pending_campaign { vCampB with target_vins := [] }).is_mandatory →
       (row_to_pending_campaign { vCampB with target_vins := [] }).created_at ≤
         (row_to_pending_campaign vCampA).created_at)) :=
  ⟨by decide, by decide,
   pending_campaigns_sorted [vCarA] [{ vCampB with target_vins := [] }, vCampA] 1 0 1
     (row_to_pending_campaign vCampA)
     (row_to_pending_campaign { vCampB with target_vins := [] })
     (by decide) (by decide) (by decide)⟩

end Autodealer
